import Mathlib

/-!
Shallow embedding of the battery-pickup order store and pricing engine
(`src/battery_pickup_service/package_data.py` and the acceptance branch of
`src/battery_pickup_service/app.py`).

Numbers (money, weights, distances, percentages) are modelled as rationals.
Python `None` is modelled with `Option`; an uncaught Python exception
(`KeyError` during pricing) is modelled with `Except.error` carrying the
missing dictionary key.  The pandas `DataFrame` built by `quote` is modelled
by the structure `QuoteDF` holding its seven rows; a cell holding the empty
string in a numeric row is modelled as `Option.none`, and the formatted
bonus-percent string is modelled by its numeric value.
-/

instance {ε α : Type} [DecidableEq ε] [DecidableEq α] : DecidableEq (Except ε α) := fun a b =>
  match a, b with
  | Except.error x, Except.error y =>
    if h : x = y then isTrue (by rw [h]) else isFalse (fun hh => h (by injection hh))
  | Except.ok x, Except.ok y =>
    if h : x = y then isTrue (by rw [h]) else isFalse (fun hh => h (by injection hh))
  | Except.error _, Except.ok _ => isFalse (fun hh => Except.noConfusion hh)
  | Except.ok _, Except.error _ => isFalse (fun hh => Except.noConfusion hh)

/-- One slot comparison of `BaseData.__eq__`: `False` when either side is
`None` (missing slot), otherwise Python value equality. -/
def slotEq {α : Type} [BEq α] : Option α → Option α → Bool
  | some a, some b => a == b
  | _, _ => false

/-- `LocationInformation`: the four slots, each possibly unset (`None`). -/
structure LocationInformation where
  state : Option String
  city : Option String
  street_address : Option String
  zip_code : Option String
deriving DecidableEq

/-- `BaseData.__eq__` specialised to `LocationInformation`: the slot loop
returns `False` as soon as a slot is `None` on either side or differs. -/
def LocationInformation.eq (a b : LocationInformation) : Bool :=
  slotEq a.state b.state && slotEq a.city b.city &&
    slotEq a.street_address b.street_address && slotEq a.zip_code b.zip_code

/-- Python `x == other` where `other` may be `None` (e.g. an order whose
`location` attribute is unset): every `getattr(None, slot, None)` is `None`,
so the comparison is `False`. -/
def LocationInformation.eqOpt (a : LocationInformation) : Option LocationInformation → Bool
  | none => false
  | some b => a.eq b

/-- `DateInformation`: day, month, year slots, each possibly unset. -/
structure DateInformation where
  day : Option Int
  month : Option Int
  year : Option Int
deriving DecidableEq

/-- `BaseData.__eq__` specialised to `DateInformation`. -/
def DateInformation.eq (a b : DateInformation) : Bool :=
  slotEq a.day b.day && slotEq a.month b.month && slotEq a.year b.year

/-- Python `x == other` with a possibly-`None` right-hand side. -/
def DateInformation.eqOpt (a : DateInformation) : Option DateInformation → Bool
  | none => false
  | some b => a.eq b

/-- `BatteryPackage`.  The claims only exercise packages whose slots are set,
so the fields are concrete (`return_reason` is informational only). -/
structure BatteryPackage where
  battery_type : String
  battery_weight : ℚ
  quality : ℚ
  return_reason : String
deriving DecidableEq

/-- A row of the itemized quote table (one per package). -/
structure PackageRow where
  battery_type : String
  battery_weight : ℚ
  battery_value : ℚ
  quality : ℚ
deriving DecidableEq

/-- The quote table built by `PackagingSystem.quote`: per-package columns plus
one trailing totals column appended to each row list. -/
structure QuoteDF where
  battery_types : List String
  battery_weights : List ℚ
  battery_qualities : List (Option ℚ)
  battery_values : List ℚ
  bonus_data : List (Option ℚ)
  shipping_data : List (Option ℚ)
  totals : List (Option ℚ)
deriving DecidableEq

/-- `Order`: identifier, optional location and date, package list, shipping
distance, acceptance flag and the cached quote (`total_cost`, `df`), both
`None` until first priced. -/
structure Order where
  order_id : String
  location : Option LocationInformation
  date : Option DateInformation
  packages : List BatteryPackage
  distance_to_ship : ℚ
  total_cost : Option ℚ
  accepted : Bool
  df : Option QuoteDF
deriving DecidableEq

/-- Entry of the `qualities` rate table. -/
structure QualityTier where
  max_percent : ℚ
  multiplier : ℚ
deriving DecidableEq

/-- Entry of the `weights` rate table. -/
structure WeightTier where
  max_weight : ℚ
  multiplier : ℚ
deriving DecidableEq

/-- Entry of the `distance` rate table. -/
structure DistanceTier where
  min_distance : ℚ
  multiplier : ℚ
deriving DecidableEq

/-- Entry of the `bonus` rate table. -/
structure BonusTier where
  min_packages : Nat
  percent : ℚ
deriving DecidableEq

/-- The rate tables the pricing engine reads (the configuration keys
`package_types` and `battery_packaging` are required at startup but never
read by any modelled operation, so they are omitted).  `battery_base_value`
is the Python dict, modelled as an association list. -/
structure RateConfig where
  qualities : List QualityTier
  weights : List WeightTier
  distance : List DistanceTier
  battery_base_value : List (String × ℚ)
  bonus : List BonusTier
deriving DecidableEq

/-- `PackagingSystem`: rate configuration plus the dict of orders keyed by
order id (modelled as an association list; `List.lookup` is dict lookup). -/
structure PackagingSystem where
  config : RateConfig
  orders : List (String × Order)
deriving DecidableEq

/-- In-place update of the order stored under a key (Python mutates the
`Order` object reached through `self.orders[order_id]`). -/
def setOrder (orders : List (String × Order)) (order_id : String) (o : Order) :
    List (String × Order) :=
  orders.map fun p => if p.1 = order_id then (order_id, o) else p

/-- `_simple_compare(location, order, "location")`: the order when its
location equals the probe, else `None`. -/
def simpleCompareLoc (x : LocationInformation) (y : Order) : Option Order :=
  if x.eqOpt y.location then some y else none

/-- `_simple_compare(date, order, "date")`. -/
def simpleCompareDate (x : DateInformation) (y : Order) : Option Order :=
  if x.eqOpt y.date then some y else none

/-- `PackagingSystem.find_orders`.  The worker-pool fan-out of
`_find_inner_data` only gathers the non-`None` comparison results, so it is
modelled by `filterMap` (result order is unspecified in the source; the list
order here is one sequentialization).  The outer `Option` is the Python
`None` returned when neither an order id nor a location is given; the list
elements are `Option Order` because the id path returns `[None]` when the id
is unknown. -/
def PackagingSystem.find_orders (ps : PackagingSystem)
    (order_id : Option String) (location : Option LocationInformation)
    (date : Option DateInformation) : Option (List (Option Order)) :=
  match order_id with
  | some oid => some [ps.orders.lookup oid]
  | none =>
    match location with
    | none => none
    | some loc =>
      let orders := ps.orders.map Prod.snd
      let matching := orders.filterMap (simpleCompareLoc loc)
      let matching2 :=
        match date with
        | none => matching
        | some d =>
          if matching.isEmpty then matching
          else matching.filterMap (simpleCompareDate d)
      some (matching2.map some)

/-- `PackagingSystem.quote_reply`: set the accepted flag when the order
exists, otherwise do nothing. -/
def PackagingSystem.quote_reply (ps : PackagingSystem) (order_id : String)
    (answer : Bool) : PackagingSystem :=
  match ps.orders.lookup order_id with
  | none => ps
  | some o => { ps with orders := setOrder ps.orders order_id { o with accepted := answer } }

/-- The distance-multiplier loop of `quote`: start at `1`, overwrite with
each tier whose `min_distance` is at or below the distance (last match
wins). -/
def distanceMult (tiers : List DistanceTier) (distance : ℚ) : ℚ :=
  tiers.foldl (fun acc d => if distance ≥ d.min_distance then d.multiplier else acc) 1

/-- The quality-multiplier loop of `quote`: start at `0`, overwrite with each
tier whose `max_percent` is at or above the quality (last match wins). -/
def qualityMult (tiers : List QualityTier) (quality : ℚ) : ℚ :=
  tiers.foldl (fun acc q => if quality ≤ q.max_percent then q.multiplier else acc) 0

/-- The weight-multiplier loop of `quote`: the loop body has a `break`, so
the first tier whose `max_weight` is at or above the total weight wins;
default `1.0`. -/
def weightMult : List WeightTier → ℚ → ℚ
  | [], _ => 1
  | w :: rest, total_weight =>
    if total_weight ≤ w.max_weight then w.multiplier else weightMult rest total_weight

/-- The bonus loop of `quote`: start at `0`, overwrite with each tier whose
`min_packages` is at or below the package count (last match wins). -/
def bonusPercent (tiers : List BonusTier) (n : Nat) : ℚ :=
  tiers.foldl (fun acc b => if n ≥ b.min_packages then b.percent else acc) 0

/-- One iteration of the per-package loop of `quote`: quality multiplier,
then the dict access `self.battery_base_value[package.battery_type]`, which
raises `KeyError` (modelled as `Except.error` with the missing key) when the
battery type is absent.  Accumulates (total value, total weight, rows). -/
def quoteStep (cfg : RateConfig) (acc : ℚ × ℚ × List PackageRow)
    (package : BatteryPackage) : Except String (ℚ × ℚ × List PackageRow) :=
  let quality_mult := qualityMult cfg.qualities package.quality
  match cfg.battery_base_value.lookup package.battery_type with
  | none => Except.error package.battery_type
  | some base =>
    Except.ok (acc.1 + base * quality_mult, acc.2.1 + package.battery_weight,
      acc.2.2 ++ [⟨package.battery_type, package.battery_weight, base * quality_mult,
        package.quality⟩])

/-- The per-package loop of `quote`; the first missing battery type aborts
the whole computation. -/
def quoteLoop (cfg : RateConfig) :
    List BatteryPackage → ℚ × ℚ × List PackageRow → Except String (ℚ × ℚ × List PackageRow)
  | [], acc => Except.ok acc
  | p :: rest, acc =>
    match quoteStep cfg acc p with
    | Except.error e => Except.error e
    | Except.ok acc2 => quoteLoop cfg rest acc2

/-- Python `round(x, 2)`: round to 2 decimal places, ties to even (the model
of float rounding on exact rationals). -/
def round2 (x : ℚ) : ℚ :=
  let y := x * 100
  let f : ℤ := y.floor
  let r : ℚ := y - f
  if r < 1 / 2 then (f : ℚ) / 100
  else if 1 / 2 < r then ((f : ℚ) + 1) / 100
  else if f % 2 = 0 then (f : ℚ) / 100 else ((f : ℚ) + 1) / 100

/-- The arithmetic of `quote` after the per-package loop, before the floor:
subtotal = total value minus shipping deduction, then the bonus percent is
applied. -/
def preFloorTotal (cfg : RateConfig) (order : Order)
    (total_value total_weight : ℚ) : ℚ :=
  let base_shipping := order.distance_to_ship * distanceMult cfg.distance order.distance_to_ship
  let weight_mult := weightMult cfg.weights total_weight
  let sub := total_value - base_shipping * weight_mult
  sub + sub * (bonusPercent cfg.bonus order.packages.length / 100)

/-- The quote table assembled at the end of `quote`: each row list gets one
trailing cell (empty string, modelled `none`, in per-package slots; sums,
bonus, shipping and total in the last slot). -/
def mkQuoteDF (rows : List PackageRow) (bonus base_shipping total_to_pay : ℚ) : QuoteDF :=
  { battery_types := rows.map (fun r => r.battery_type) ++ [""]
    battery_weights := rows.map (fun r => r.battery_weight) ++
      [(rows.map fun r => r.battery_weight).sum]
    battery_qualities := rows.map (fun r => some r.quality) ++ [none]
    battery_values := rows.map (fun r => r.battery_value) ++
      [(rows.map fun r => r.battery_value).sum]
    bonus_data := rows.map (fun _ => (none : Option ℚ)) ++ [some bonus]
    shipping_data := rows.map (fun _ => (none : Option ℚ)) ++ [some base_shipping]
    totals := rows.map (fun _ => (none : Option ℚ)) ++ [some total_to_pay] }

/-- Possible return values of `PackagingSystem.quote`: Python `None` for an
unknown order id, the bare cached float on a cache hit, or the freshly built
quote table. -/
inductive QuoteReturn where
  | none
  | cost (c : ℚ)
  | table (df : QuoteDF)
deriving DecidableEq

/-- The tail of `quote` once the per-package loop has succeeded: weight
multiplier, shipping deduction, bonus, floor, rounding, table assembly and
the cache write under the lock. -/
def quoteFinish (ps : PackagingSystem) (order_id : String) (order : Order)
    (total_value total_weight : ℚ) (rows : List PackageRow) :
    Except String QuoteReturn × PackagingSystem :=
  let base_shipping := order.distance_to_ship * distanceMult ps.config.distance order.distance_to_ship
  let weight_mult := weightMult ps.config.weights total_weight
  let sub := total_value - base_shipping * weight_mult
  let bonus := bonusPercent ps.config.bonus order.packages.length
  let total_to_pay := round2 (max (sub + sub * (bonus / 100)) 100)
  let df := mkQuoteDF rows bonus base_shipping total_to_pay
  let order2 := { order with total_cost := some total_to_pay, df := some df }
  (Except.ok (QuoteReturn.table df), { ps with orders := setOrder ps.orders order_id order2 })

/-- `PackagingSystem.quote`.  Unknown order id returns `None`; a cached
order returns its bare `total_cost` without recomputation; otherwise the
pricing pipeline runs and the result is cached on the order.  An uncaught
`KeyError` from a missing battery type is `Except.error` and leaves the
store untouched (the cache write comes after the loop). -/
def PackagingSystem.quote (ps : PackagingSystem) (order_id : String) :
    Except String QuoteReturn × PackagingSystem :=
  match ps.orders.lookup order_id with
  | none => (Except.ok QuoteReturn.none, ps)
  | some order =>
    match order.total_cost with
    | some c => (Except.ok (QuoteReturn.cost c), ps)
    | none =>
      match quoteLoop ps.config order.packages (0, 0, []) with
      | Except.error bt => (Except.error bt, ps)
      | Except.ok (total_value, total_weight, rows) =>
        quoteFinish ps order_id order total_value total_weight rows

/-- The JSON `accept` value of a quote request: a genuine boolean, or any
non-boolean value (which fails `isinstance(answer, bool)`). -/
inductive PyAnswer where
  | bool (b : Bool)
  | nonbool
deriving DecidableEq

/-- The accept branch of `handle_quote_request` in `app.py`: a non-boolean
answer yields status 400 and is replaced by `False`; `quote_reply` is then
called unconditionally.  Returns (HTTP status, new system state). -/
def handle_quote_accept (ps : PackagingSystem) (order_id : String)
    (answer : PyAnswer) : Nat × PackagingSystem :=
  match answer with
  | PyAnswer.bool b => (200, ps.quote_reply order_id b)
  | PyAnswer.nonbool => (400, ps.quote_reply order_id false)

/-- Modelled from the spec wording of the weight rule under test (not from
the source): the first weight tier whose `max_weight` is at or above the
total weight, with a default of `1.0` when no tier matches or the package
list is empty.  Used only to compare the claimed rule with the source's
`weightMult`. -/
def weightMultClaim (tiers : List WeightTier) (packages : List BatteryPackage)
    (total_weight : ℚ) : ℚ :=
  if packages.isEmpty then 1
  else
    match tiers.find? (fun t => decide (total_weight ≤ t.max_weight)) with
    | some t => t.multiplier
    | none => 1

/-! ### Concrete fixtures -/

/-- A rate configuration with every table empty. -/
def cfg0 : RateConfig := ⟨[], [], [], [], []⟩

/-- An uncached order with no packages and zero shipping distance. -/
def oEmpty : Order :=
  { order_id := "A", location := none, date := none, packages := [],
    distance_to_ship := 0, total_cost := none, accepted := false, df := none }

/-- A one-order store holding `oEmpty`. -/
def psEmpty : PackagingSystem := ⟨cfg0, [("A", oEmpty)]⟩

/-- The quote table `quote` builds for `oEmpty` under `cfg0`. -/
def dfEmpty : QuoteDF := ⟨[""], [0], [none], [0], [some 0], [some 0], [some 100]⟩

/-- A different rate configuration, standing for a mutation of the rate
tables between two quote calls. -/
def cfgMut : RateConfig := ⟨[⟨100, 2⟩], [⟨50, 3⟩], [⟨0, 4⟩], [("li-ion", 10)], [⟨1, 5⟩]⟩

/-- A package whose battery type has no entry in a base-value mapping. -/
def pkgUnknown : BatteryPackage := ⟨"unknown", 1, 50, "damaged"⟩

/-- An uncached order holding only `pkgUnknown`. -/
def oUnknown : Order :=
  { order_id := "B", location := none, date := none, packages := [pkgUnknown],
    distance_to_ship := 0, total_cost := none, accepted := false, df := none }

/-- A one-order store whose base-value mapping (empty) is missing
`pkgUnknown`'s battery type. -/
def psUnknown : PackagingSystem := ⟨cfg0, [("B", oUnknown)]⟩

/-- An empty-package order with a negative shipping distance, to expose the
weight multiplier actually used for an empty package list. -/
def oC4 : Order :=
  { order_id := "C", location := none, date := none, packages := [],
    distance_to_ship := -50, total_cost := none, accepted := false, df := none }

/-- A configuration whose single weight tier covers weight 0 with
multiplier 3. -/
def cfgC4 : RateConfig := ⟨[], [⟨10, 3⟩], [], [], []⟩

/-- Store pairing `oC4` with `cfgC4`. -/
def psC4 : PackagingSystem := ⟨cfgC4, [("C", oC4)]⟩

/-- An order whose quote was already accepted. -/
def oAccepted : Order :=
  { order_id := "D", location := none, date := none, packages := [],
    distance_to_ship := 0, total_cost := none, accepted := true, df := none }

/-- A one-order store holding `oAccepted`. -/
def psAccepted : PackagingSystem := ⟨cfg0, [("D", oAccepted)]⟩

/-- A fully populated location. -/
def locV : LocationInformation := ⟨some "VA", some "VB", some "123", some "12345"⟩

/-- An order located at `locV`. -/
def oLoc : Order :=
  { order_id := "E", location := some locV, date := none, packages := [],
    distance_to_ship := 0, total_cost := none, accepted := false, df := none }

/-- A one-order store holding `oLoc`. -/
def psLoc : PackagingSystem := ⟨cfg0, [("E", oLoc)]⟩

/-! ### Helper lemmas -/

lemma ratFloor_eq (q : ℚ) : q.floor = ⌊q⌋ := by
  rw [Rat.floor_def', Rat.floor_def]

lemma round2_intCast (n : ℤ) : round2 (n : ℚ) = n := by
  have h1 : ((n : ℚ) * 100) = ((n * 100 : ℤ) : ℚ) := by push_cast; ring
  simp only [round2, ratFloor_eq, h1, Int.floor_intCast]
  norm_num

lemma round2_100 : round2 (100 : ℚ) = 100 := by
  have h := round2_intCast 100
  norm_num at h
  exact h

lemma round2_ge_100 {x : ℚ} (h : 100 ≤ x) : 100 ≤ round2 x := by
  have hy : (10000 : ℚ) ≤ x * 100 := by linarith
  have hf : (10000 : ℤ) ≤ ⌊x * 100⌋ := Int.le_floor.mpr (by exact_mod_cast hy)
  have hfq : (10000 : ℚ) ≤ ((⌊x * 100⌋ : ℤ) : ℚ) := by exact_mod_cast hf
  simp only [round2, ratFloor_eq]
  split_ifs <;> rw [le_div_iff₀ (by norm_num : (0 : ℚ) < 100)] <;> linarith

lemma slotEq_none_left {α : Type} [BEq α] (y : Option α) : slotEq (none : Option α) y = false := by
  cases y <;> rfl

lemma slotEq_true_iff {α : Type} [BEq α] [LawfulBEq α] (x y : Option α) :
    slotEq x y = true ↔ x ≠ none ∧ x = y := by
  cases x <;> cases y <;> simp [slotEq]

/-- The last element of a list satisfying a predicate. -/
def lastMatch {α : Type} (p : α → Bool) (l : List α) : Option α :=
  l.reverse.find? p

lemma lastMatch_nil {α : Type} (p : α → Bool) : lastMatch p ([] : List α) = none := rfl

lemma lastMatch_cons {α : Type} (p : α → Bool) (t : α) (ts : List α) :
    lastMatch p (t :: ts) = (lastMatch p ts).or (if p t then some t else none) := by
  rw [lastMatch, lastMatch, List.reverse_cons, List.find?_append]
  cases hp : p t <;> simp [List.find?, hp]

/-- A fold that overwrites its accumulator at every matching element computes
the image of the last match (or keeps the start value). -/
lemma foldl_overwrite_eq_lastMatch {α : Type} (p : α → Prop) [DecidablePred p]
    (m : α → ℚ) (l : List α) (acc : ℚ) :
    l.foldl (fun a t => if p t then m t else a) acc =
      match lastMatch (fun t => decide (p t)) l with
      | some t => m t
      | none => acc := by
  induction l generalizing acc with
  | nil => rfl
  | cons t ts ih =>
    rw [List.foldl_cons, ih, lastMatch_cons]
    cases h : lastMatch (fun t => decide (p t)) ts with
    | some u => simp [Option.or]
    | none => by_cases hp : p t <;> simp [Option.or, hp]

lemma lastMatch_mem {α : Type} {p : α → Bool} {l : List α} {t : α}
    (h : lastMatch p l = some t) : t ∈ l ∧ p t = true :=
  ⟨List.mem_reverse.mp (List.mem_of_find?_eq_some h), List.find?_some h⟩

lemma foldl_overwrite_nonneg {α : Type} (p : α → Prop) [DecidablePred p]
    (m : α → ℚ) (l : List α) (acc : ℚ) (h0 : 0 ≤ acc) (hm : ∀ t ∈ l, 0 ≤ m t) :
    0 ≤ l.foldl (fun a t => if p t then m t else a) acc := by
  induction l generalizing acc with
  | nil => exact h0
  | cons t ts ih =>
    rw [List.foldl_cons]
    refine ih _ ?_ fun u hu => hm u (List.mem_cons_of_mem _ hu)
    by_cases hp : p t
    · simpa [hp] using hm t (List.mem_cons_self _ _)
    · simpa [hp] using h0

lemma distanceMult_nonneg (tiers : List DistanceTier) (d : ℚ)
    (hm : ∀ t ∈ tiers, 0 ≤ t.multiplier) : 0 ≤ distanceMult tiers d :=
  foldl_overwrite_nonneg _ _ tiers 1 (by norm_num) hm

lemma bonusPercent_nonneg (tiers : List BonusTier) (n : Nat)
    (hm : ∀ t ∈ tiers, 0 ≤ t.percent) : 0 ≤ bonusPercent tiers n :=
  foldl_overwrite_nonneg _ _ tiers 0 le_rfl hm

lemma weightMult_nonneg (tiers : List WeightTier) (w : ℚ)
    (hm : ∀ t ∈ tiers, 0 ≤ t.multiplier) : 0 ≤ weightMult tiers w := by
  induction tiers with
  | nil => norm_num [weightMult]
  | cons t ts ih =>
    rw [weightMult]
    by_cases hw : w ≤ t.max_weight
    · simpa [hw] using hm t (List.mem_cons_self _ _)
    · simpa [hw] using ih fun u hu => hm u (List.mem_cons_of_mem _ hu)

lemma weightMult_eq_find? (tiers : List WeightTier) (w : ℚ) :
    weightMult tiers w =
      match tiers.find? (fun t => decide (w ≤ t.max_weight)) with
      | some t => t.multiplier
      | none => 1 := by
  induction tiers with
  | nil => rfl
  | cons t ts ih =>
    rw [weightMult, List.find?]
    by_cases hw : w ≤ t.max_weight <;> simp [hw, ih]

lemma lookup_setOrder_self (orders : List (String × Order)) (oid : String) (o : Order) :
    (setOrder orders oid o).lookup oid = (orders.lookup oid).map fun _ => o := by
  induction orders with
  | nil => rfl
  | cons hd tl ih =>
    rcases hd with ⟨k0, o0⟩
    by_cases hp : k0 = oid
    · subst hp
      show List.lookup k0 ((if (k0, o0).1 = k0 then (k0, o) else (k0, o0)) :: setOrder tl k0 o) = _
      rw [if_pos rfl]
      simp [List.lookup]
    · show List.lookup oid ((if (k0, o0).1 = oid then (oid, o) else (k0, o0)) :: setOrder tl oid o) = _
      rw [if_neg hp]
      have h1 : (oid == k0) = false := by
        simp only [beq_eq_false_iff_ne, ne_eq]
        exact fun he => hp he.symm
      simp only [List.lookup, h1]
      exact ih

lemma lookup_setOrder_ne (orders : List (String × Order)) (oid k : String) (o : Order)
    (h : k ≠ oid) : (setOrder orders oid o).lookup k = orders.lookup k := by
  induction orders with
  | nil => rfl
  | cons hd tl ih =>
    rcases hd with ⟨k0, o0⟩
    by_cases hp : k0 = oid
    · subst hp
      show List.lookup k ((if (k0, o0).1 = k0 then (k0, o) else (k0, o0)) :: setOrder tl k0 o) = _
      rw [if_pos rfl]
      have h1 : (k == k0) = false := by
        simp only [beq_eq_false_iff_ne, ne_eq]
        exact h
      simp only [List.lookup, h1]
      exact ih
    · show List.lookup k ((if (k0, o0).1 = oid then (oid, o) else (k0, o0)) :: setOrder tl oid o) = _
      rw [if_neg hp]
      simp only [List.lookup]
      cases hk : k == k0
      · exact ih
      · rfl

lemma quote_reply_lookup_self (ps : PackagingSystem) (oid : String) (b : Bool) (o : Order)
    (h : ps.orders.lookup oid = some o) :
    (ps.quote_reply oid b).orders.lookup oid = some { o with accepted := b } := by
  simp [PackagingSystem.quote_reply, h, lookup_setOrder_self]

/-- A package list containing a battery type missing from the base-value
mapping makes the per-package loop abort with the missing key. -/
lemma quoteLoop_missing (cfg : RateConfig) (l : List BatteryPackage)
    (acc : ℚ × ℚ × List PackageRow)
    (hmiss : ∃ p ∈ l, cfg.battery_base_value.lookup p.battery_type = none) :
    ∃ bt, quoteLoop cfg l acc = Except.error bt ∧
      cfg.battery_base_value.lookup bt = none := by
  induction l generalizing acc with
  | nil => simp at hmiss
  | cons p rest ih =>
    by_cases hp : cfg.battery_base_value.lookup p.battery_type = none
    · exact ⟨p.battery_type, by simp [quoteLoop, quoteStep, hp], hp⟩
    · obtain ⟨base, hbase⟩ := Option.ne_none_iff_exists'.mp hp
      have hm2 : ∃ q ∈ rest, cfg.battery_base_value.lookup q.battery_type = none := by
        rcases hmiss with ⟨q, hq, hqe⟩
        rcases List.mem_cons.mp hq with rfl | hq2
        · exact absurd hqe hp
        · exact ⟨q, hq2, hqe⟩
      obtain ⟨bt, hl, hbt⟩ := ih (acc.1 + base * qualityMult cfg.qualities p.quality,
        acc.2.1 + p.battery_weight,
        acc.2.2 ++ [⟨p.battery_type, p.battery_weight,
          base * qualityMult cfg.qualities p.quality, p.quality⟩]) hm2
      exact ⟨bt, by simp [quoteLoop, quoteStep, hbase, hl], hbt⟩

lemma quoteFinish_fst (ps : PackagingSystem) (oid : String) (o : Order)
    (tv tw : ℚ) (rows : List PackageRow) :
    (quoteFinish ps oid o tv tw rows).1 = Except.ok (QuoteReturn.table
      (mkQuoteDF rows (bonusPercent ps.config.bonus o.packages.length)
        (o.distance_to_ship * distanceMult ps.config.distance o.distance_to_ship)
        (round2 (max (preFloorTotal ps.config o tv tw) 100)))) := rfl

lemma quoteFinish_orders (ps : PackagingSystem) (oid : String) (o : Order)
    (tv tw : ℚ) (rows : List PackageRow) :
    (quoteFinish ps oid o tv tw rows).2.orders = setOrder ps.orders oid
      { o with
        total_cost := some (round2 (max (preFloorTotal ps.config o tv tw) 100)),
        df := some (mkQuoteDF rows (bonusPercent ps.config.bonus o.packages.length)
          (o.distance_to_ship * distanceMult ps.config.distance o.distance_to_ship)
          (round2 (max (preFloorTotal ps.config o tv tw) 100))) } := rfl

lemma quoteFinish_config (ps : PackagingSystem) (oid : String) (o : Order)
    (tv tw : ℚ) (rows : List PackageRow) :
    (quoteFinish ps oid o tv tw rows).2.config = ps.config := rfl

lemma mem_filterMap_loc (orders : List Order) (loc : LocationInformation) (o : Order) :
    o ∈ orders.filterMap (simpleCompareLoc loc) ↔
      o ∈ orders ∧ loc.eqOpt o.location = true := by
  constructor
  · intro hmem
    rcases List.mem_filterMap.mp hmem with ⟨y, hy, hf⟩
    unfold simpleCompareLoc at hf
    by_cases hc : loc.eqOpt y.location = true
    · rw [if_pos hc] at hf
      injection hf with he
      subst he
      exact ⟨hy, hc⟩
    · rw [if_neg hc] at hf
      cases hf
  · rintro ⟨ho, hc⟩
    exact List.mem_filterMap.mpr ⟨o, ho, by rw [simpleCompareLoc, if_pos hc]⟩

lemma mem_filterMap_date (orders : List Order) (d : DateInformation) (o : Order) :
    o ∈ orders.filterMap (simpleCompareDate d) ↔
      o ∈ orders ∧ d.eqOpt o.date = true := by
  constructor
  · intro hmem
    rcases List.mem_filterMap.mp hmem with ⟨y, hy, hf⟩
    unfold simpleCompareDate at hf
    by_cases hc : d.eqOpt y.date = true
    · rw [if_pos hc] at hf
      injection hf with he
      subst he
      exact ⟨hy, hc⟩
    · rw [if_neg hc] at hf
      cases hf
  · rintro ⟨ho, hc⟩
    exact List.mem_filterMap.mpr ⟨o, ho, by rw [simpleCompareDate, if_pos hc]⟩

/-! ### Claim theorems -/

/-- Claim C1 (code divergence, concrete evidence): on the store `psEmpty`,
the first quote call returns the itemized table, while the second call for
the same order id returns the bare cached float `100` — a different value —
and keeps returning it unchanged after the rate configuration is replaced by
`cfgMut` (no recomputation). -/
theorem C1_second_call_returns_cached_float :
    (psEmpty.quote "A").1 = Except.ok (QuoteReturn.table dfEmpty) ∧
    ((psEmpty.quote "A").2.quote "A").1 = Except.ok (QuoteReturn.cost 100) ∧
    ({ (psEmpty.quote "A").2 with config := cfgMut }.quote "A").1 =
      Except.ok (QuoteReturn.cost 100) ∧
    Except.ok (QuoteReturn.table dfEmpty) ≠
      (Except.ok (QuoteReturn.cost 100) : Except String QuoteReturn) := by
  refine ⟨?_, ?_, ?_, by simp⟩
  · norm_num [PackagingSystem.quote, psEmpty, oEmpty, cfg0, dfEmpty, quoteLoop, quoteFinish,
      mkQuoteDF, distanceMult, weightMult, bonusPercent, List.lookup, round2_100]
  · norm_num [PackagingSystem.quote, psEmpty, oEmpty, cfg0, quoteLoop, quoteFinish,
      mkQuoteDF, distanceMult, weightMult, bonusPercent, List.lookup, setOrder, round2_100]
  · norm_num [PackagingSystem.quote, psEmpty, oEmpty, cfg0, quoteLoop, quoteFinish,
      mkQuoteDF, distanceMult, weightMult, bonusPercent, List.lookup, setOrder, round2_100]

/-- Claim C2 (counterexample): quoting the stored order whose package has a
battery type absent from the base-value mapping raises an uncaught `KeyError`
carrying the missing key; it does not return the typed absent quote result
used for unknown order ids. -/
theorem C2_counterexample_keyerror :
    psUnknown.quote "B" = (Except.error "unknown", psUnknown) ∧
    (Except.error "unknown" : Except String QuoteReturn) ≠ Except.ok QuoteReturn.none := by
  refine ⟨?_, by simp⟩
  simp [PackagingSystem.quote, psUnknown, oUnknown, cfg0, pkgUnknown, quoteLoop, quoteStep,
    qualityMult, List.lookup]

/-- Claim C2 (amended): a package whose battery type is missing from the
base-value mapping makes the quote operation abort with an uncaught
`KeyError` naming a missing battery type; the store (this order included) is
left unchanged, but the failure is a raised fault, not a typed absent
result. -/
theorem C2_missing_battery_type_uncaught (ps : PackagingSystem) (oid : String) (o : Order)
    (h : ps.orders.lookup oid = some o) (hc : o.total_cost = none)
    (hmiss : ∃ p ∈ o.packages, ps.config.battery_base_value.lookup p.battery_type = none) :
    ∃ bt, ps.quote oid = (Except.error bt, ps) ∧
      ps.config.battery_base_value.lookup bt = none := by
  obtain ⟨bt, hl, hbt⟩ := quoteLoop_missing ps.config o.packages (0, 0, []) hmiss
  refine ⟨bt, ?_, hbt⟩
  simp only [PackagingSystem.quote, h, hc, hl]

/-- Witness for C2 at the concrete store `psUnknown`. -/
theorem C2_witness :
    ∃ bt, psUnknown.quote "B" = (Except.error bt, psUnknown) ∧
      psUnknown.config.battery_base_value.lookup bt = none :=
  C2_missing_battery_type_uncaught psUnknown "B" oUnknown rfl rfl
    ⟨pkgUnknown, List.mem_cons_self _ _, rfl⟩

/-- Claim C3: for a stored, uncached order whose pricing loop succeeds with
total value `tv` and total weight `tw`, the quoted total is exactly
`round2 (max (pre-floor total) 100)` — in the table's totals row and in the
cached `total_cost` — and is therefore never below 100. -/
theorem C3_price_floor (ps : PackagingSystem) (oid : String) (o : Order)
    (tv tw : ℚ) (rows : List PackageRow)
    (h : ps.orders.lookup oid = some o) (hc : o.total_cost = none)
    (hl : quoteLoop ps.config o.packages (0, 0, []) = Except.ok (tv, tw, rows)) :
    (ps.quote oid).1 = Except.ok (QuoteReturn.table
      (mkQuoteDF rows (bonusPercent ps.config.bonus o.packages.length)
        (o.distance_to_ship * distanceMult ps.config.distance o.distance_to_ship)
        (round2 (max (preFloorTotal ps.config o tv tw) 100)))) ∧
    (mkQuoteDF rows (bonusPercent ps.config.bonus o.packages.length)
        (o.distance_to_ship * distanceMult ps.config.distance o.distance_to_ship)
        (round2 (max (preFloorTotal ps.config o tv tw) 100))).totals.getLast? =
      some (some (round2 (max (preFloorTotal ps.config o tv tw) 100))) ∧
    (∀ o2, (ps.quote oid).2.orders.lookup oid = some o2 →
      o2.total_cost = some (round2 (max (preFloorTotal ps.config o tv tw) 100))) ∧
    100 ≤ round2 (max (preFloorTotal ps.config o tv tw) 100) := by
  have hq : ps.quote oid = quoteFinish ps oid o tv tw rows := by
    simp only [PackagingSystem.quote, h, hc, hl]
  refine ⟨by rw [hq, quoteFinish_fst], ?_, ?_, round2_ge_100 (le_max_right _ _)⟩
  · simp [mkQuoteDF, List.getLast?_concat]
  · intro o2 ho2
    rw [hq, quoteFinish_orders, lookup_setOrder_self, h, Option.map_some'] at ho2
    injection ho2 with he
    rw [← he]

/-- Witness for C3 at the empty-package order `oEmpty`. -/
theorem C3_witness :
    100 ≤ round2 (max (preFloorTotal psEmpty.config oEmpty 0 0) 100) ∧
    (psEmpty.quote "A").1 = Except.ok (QuoteReturn.table
      (mkQuoteDF [] (bonusPercent psEmpty.config.bonus oEmpty.packages.length)
        (oEmpty.distance_to_ship *
          distanceMult psEmpty.config.distance oEmpty.distance_to_ship)
        (round2 (max (preFloorTotal psEmpty.config oEmpty 0 0) 100)))) := by
  have h := C3_price_floor psEmpty "A" oEmpty 0 0 [] rfl rfl rfl
  exact ⟨h.2.2.2, h.1⟩

/-- Claim C4 (counterexample): for an empty package list the engine does not
default the weight multiplier to 1.0; it takes the first tier whose
`max_weight` covers total weight 0 (here multiplier 3), observable in the
quote total 150 where the claimed default 1.0 would have produced 100. -/
theorem C4_counterexample_empty_packages :
    weightMultClaim cfgC4.weights [] 0 = 1 ∧
    weightMult cfgC4.weights 0 = 3 ∧
    (psC4.quote "C").1 = Except.ok (QuoteReturn.table
      ⟨[""], [0], [none], [0], [some 0], [some (-50)], [some 150]⟩) := by
  refine ⟨rfl, ?_, ?_⟩
  · norm_num [cfgC4, weightMult]
  · have h150 : round2 (150 : ℚ) = 150 := by
      have h := round2_intCast 150
      norm_num at h
      exact h
    norm_num [PackagingSystem.quote, psC4, oC4, cfgC4, quoteLoop, quoteFinish, mkQuoteDF,
      distanceMult, weightMult, bonusPercent, List.lookup, h150]

/-- Claim C4 (amended): the quality, distance and bonus values come from the
last matching tier in list order, while the weight multiplier comes from the
first tier whose `max_weight` is at or above the total weight, defaulting to
1.0 only when no tier matches (an empty package list simply yields total
weight 0, matched by the normal first-match rule). -/
theorem C4_tier_match_directions (qts : List QualityTier) (q : ℚ)
    (dts : List DistanceTier) (dist : ℚ) (bts : List BonusTier) (n : Nat)
    (wts : List WeightTier) (w : ℚ) :
    (∀ t, lastMatch (fun u => decide (q ≤ u.max_percent)) qts = some t →
      qualityMult qts q = t.multiplier) ∧
    (∀ t, lastMatch (fun u => decide (dist ≥ u.min_distance)) dts = some t →
      distanceMult dts dist = t.multiplier) ∧
    (∀ t, lastMatch (fun u => decide (n ≥ u.min_packages)) bts = some t →
      bonusPercent bts n = t.percent) ∧
    (weightMult wts w = match wts.find? (fun u => decide (w ≤ u.max_weight)) with
      | some t => t.multiplier
      | none => 1) := by
  refine ⟨?_, ?_, ?_, weightMult_eq_find? wts w⟩
  · intro t ht
    unfold qualityMult
    rw [foldl_overwrite_eq_lastMatch (fun u : QualityTier => q ≤ u.max_percent)
      (fun u : QualityTier => u.multiplier), ht]
  · intro t ht
    unfold distanceMult
    rw [foldl_overwrite_eq_lastMatch (fun u : DistanceTier => dist ≥ u.min_distance)
      (fun u : DistanceTier => u.multiplier), ht]
  · intro t ht
    unfold bonusPercent
    rw [foldl_overwrite_eq_lastMatch (fun u : BonusTier => n ≥ u.min_packages)
      (fun u : BonusTier => u.percent), ht]

/-- Witness for C4 on concrete overlapping tiers, one per table. -/
theorem C4_witness :
    qualityMult [⟨50, 2⟩, ⟨100, 3⟩] 75 = 3 ∧
    distanceMult [⟨0, 5⟩, ⟨100, 7⟩] 30 = 5 ∧
    bonusPercent [⟨1, 10⟩, ⟨5, 20⟩] 2 = 10 ∧
    weightMult [⟨10, 4⟩, ⟨50, 6⟩] 30 = 6 := by
  obtain ⟨hq, hd, hb, hw⟩ := C4_tier_match_directions
    [⟨50, 2⟩, ⟨100, 3⟩] 75 [⟨0, 5⟩, ⟨100, 7⟩] 30 [⟨1, 10⟩, ⟨5, 20⟩] 2 [⟨10, 4⟩, ⟨50, 6⟩] 30
  exact ⟨hq ⟨100, 3⟩ (by decide), hd ⟨0, 5⟩ (by decide), hb ⟨1, 10⟩ (by decide),
    hw.trans (by decide)⟩

/-- Claim C5 (counterexample): the order starts accepted; submitting a
non-boolean acceptance is answered with status 400 but also overwrites the
stored flag with `false` — it does not leave the flag unchanged. -/
theorem C5_counterexample_nonbool_overwrites :
    (psAccepted.orders.lookup "D").map Order.accepted = some true ∧
    (handle_quote_accept psAccepted "D" PyAnswer.nonbool).1 = 400 ∧
    ((handle_quote_accept psAccepted "D" PyAnswer.nonbool).2.orders.lookup "D").map
      Order.accepted = some false := by
  refine ⟨rfl, rfl, ?_⟩
  simp [handle_quote_accept, PackagingSystem.quote_reply, psAccepted, oAccepted,
    setOrder, List.lookup]

/-- Claim C5 (amended): submitting a non-boolean acceptance is rejected with
a 400 caller-error status and the stored flag is coerced to `false` (not
left unchanged); setting `true` then `false` leaves the flag `false`. -/
theorem C5_acceptance_coercion_and_roundtrip (ps : PackagingSystem) (oid : String)
    (o : Order) (h : ps.orders.lookup oid = some o) :
    (handle_quote_accept ps oid PyAnswer.nonbool).1 = 400 ∧
    (handle_quote_accept ps oid PyAnswer.nonbool).2.orders.lookup oid =
      some { o with accepted := false } ∧
    (handle_quote_accept (handle_quote_accept ps oid (PyAnswer.bool true)).2 oid
        (PyAnswer.bool false)).2.orders.lookup oid = some { o with accepted := false } := by
  refine ⟨rfl, quote_reply_lookup_self ps oid false o h, ?_⟩
  have h1 := quote_reply_lookup_self ps oid true o h
  exact quote_reply_lookup_self (ps.quote_reply oid true) oid false
    { o with accepted := true } h1

/-- Witness for C5 at the concrete store `psAccepted`. -/
theorem C5_witness :
    (handle_quote_accept psAccepted "D" PyAnswer.nonbool).1 = 400 ∧
    (handle_quote_accept psAccepted "D" PyAnswer.nonbool).2.orders.lookup "D" =
      some { oAccepted with accepted := false } ∧
    (handle_quote_accept (handle_quote_accept psAccepted "D" (PyAnswer.bool true)).2 "D"
        (PyAnswer.bool false)).2.orders.lookup "D" =
      some { oAccepted with accepted := false } :=
  C5_acceptance_coercion_and_roundtrip psAccepted "D" oAccepted rfl

/-- Claim C6: a Location with any missing (null) field compares unequal to
every Location, itself included; equality holds exactly when all four fields
are present on both sides and equal (case-sensitive string equality). -/
theorem C6_null_location_never_equal (L1 L2 : LocationInformation)
    (h : L1.state = none ∨ L1.city = none ∨ L1.street_address = none ∨ L1.zip_code = none) :
    L1.eq L2 = false ∧ L1.eq L1 = false ∧
    (∀ M1 M2 : LocationInformation, M1.eq M2 = true ↔
      (M1.state ≠ none ∧ M1.city ≠ none ∧ M1.street_address ≠ none ∧ M1.zip_code ≠ none ∧
        M1.state = M2.state ∧ M1.city = M2.city ∧
        M1.street_address = M2.street_address ∧ M1.zip_code = M2.zip_code)) := by
  have hfalse : ∀ M : LocationInformation, L1.eq M = false := by
    intro M
    rcases h with h | h | h | h <;>
      simp [LocationInformation.eq, h, slotEq_none_left]
  refine ⟨hfalse L2, hfalse L1, ?_⟩
  intro M1 M2
  simp only [LocationInformation.eq, Bool.and_eq_true, slotEq_true_iff]
  tauto

/-- Witness for C6: a location with a null state is unequal to itself. -/
theorem C6_witness :
    LocationInformation.eq
      { state := none, city := some "c", street_address := some "s", zip_code := some "z" }
      { state := none, city := some "c", street_address := some "s", zip_code := some "z" } =
      false :=
  (C6_null_location_never_equal
    { state := none, city := some "c", street_address := some "s", zip_code := some "z" }
    { state := none, city := some "c", street_address := some "s", zip_code := some "z" }
    (Or.inl rfl)).1

/-- Claim C7: for any store state and non-null location, the search returns
exactly the stored orders whose location equals the probe (field-wise); a
supplied date further restricts the result to exactly equal dates.  (The
source parallelizes the comparisons, so only set membership — not order —
is characterized.) -/
theorem C7_find_orders_by_location (ps : PackagingSystem) (loc : LocationInformation)
    (date : Option DateInformation) (o : Order) :
    ∃ res, ps.find_orders none (some loc) date = some res ∧
      (some o ∈ res ↔ (o ∈ ps.orders.map Prod.snd ∧ loc.eqOpt o.location = true ∧
        ∀ d, date = some d → d.eqOpt o.date = true)) := by
  cases date with
  | none =>
    refine ⟨_, rfl, ?_⟩
    rw [List.mem_map_of_injective (Option.some_injective _), mem_filterMap_loc]
    simp
  | some d =>
    refine ⟨(if ((ps.orders.map Prod.snd).filterMap (simpleCompareLoc loc)).isEmpty then
        (ps.orders.map Prod.snd).filterMap (simpleCompareLoc loc)
      else ((ps.orders.map Prod.snd).filterMap (simpleCompareLoc loc)).filterMap
        (simpleCompareDate d)).map some, rfl, ?_⟩
    rw [List.mem_map_of_injective (Option.some_injective _)]
    by_cases he : ((ps.orders.map Prod.snd).filterMap (simpleCompareLoc loc)).isEmpty = true
    · rw [if_pos he]
      rw [List.isEmpty_iff] at he
      constructor
      · intro hmem
        rw [he] at hmem
        exact absurd hmem (List.not_mem_nil o)
      · rintro ⟨ho, hl, _⟩
        have hm : o ∈ (ps.orders.map Prod.snd).filterMap (simpleCompareLoc loc) :=
          (mem_filterMap_loc _ _ _).mpr ⟨ho, hl⟩
        rw [he] at hm
        exact absurd hm (List.not_mem_nil o)
    · rw [if_neg he, mem_filterMap_date, mem_filterMap_loc]
      constructor
      · rintro ⟨⟨ho, hl⟩, hd⟩
        refine ⟨ho, hl, fun d2 hd2 => ?_⟩
        injection hd2 with h2
        rwa [← h2]
      · rintro ⟨ho, hl, hall⟩
        exact ⟨⟨ho, hl⟩, hall d rfl⟩

/-- Witness for C7 at the one-order store `psLoc`. -/
theorem C7_witness :
    ∃ res, psLoc.find_orders none (some locV) none = some res ∧
      (some oLoc ∈ res ↔ (oLoc ∈ psLoc.orders.map Prod.snd ∧
        locV.eqOpt oLoc.location = true ∧
        ∀ d, (none : Option DateInformation) = some d → d.eqOpt oLoc.date = true)) :=
  C7_find_orders_by_location psLoc locV none oLoc

/-- Claim C8: lookup by id always yields a one-slot collection — the stored
order when the id is present, the absent marker (not an error) when it is
not, and in particular the absent marker on an empty store. -/
theorem C8_find_by_id (ps : PackagingSystem) (oid : String)
    (loc : Option LocationInformation) (d : Option DateInformation) :
    ps.find_orders (some oid) loc d = some [ps.orders.lookup oid] ∧
    (∀ res, ps.find_orders (some oid) loc d = some res → res.length ≤ 1) ∧
    (∀ o, ps.orders.lookup oid = some o →
      ps.find_orders (some oid) loc d = some [some o]) ∧
    (ps.orders.lookup oid = none → ps.find_orders (some oid) loc d = some [none]) ∧
    (ps.orders = [] → ps.find_orders (some oid) loc d = some [none]) := by
  refine ⟨rfl, ?_, ?_, ?_, ?_⟩
  · intro res hres
    have h0 : ps.find_orders (some oid) loc d = some [ps.orders.lookup oid] := rfl
    rw [h0] at hres
    injection hres with he
    rw [← he]
    exact Nat.le_refl 1
  · intro o ho
    show some [ps.orders.lookup oid] = some [some o]
    rw [ho]
  · intro ho
    show some [ps.orders.lookup oid] = some [none]
    rw [ho]
  · intro h0
    show some [ps.orders.lookup oid] = some [none]
    rw [h0]
    rfl

/-- Witness for C8: lookup on an empty store. -/
theorem C8_witness :
    PackagingSystem.find_orders ⟨cfg0, []⟩ (some "Z") none none = some [none] :=
  (C8_find_by_id ⟨cfg0, []⟩ "Z" none none).2.2.2.2 rfl

/-- Claim C9: a stored, uncached order with no packages still gets a quote;
with non-negative distance and non-negative configured multipliers and bonus
percents, total value and weight are zero, the subtotal (the negative of the
shipping deduction) is non-positive, and the floored total is exactly 100. -/
theorem C9_empty_order_total_100 (ps : PackagingSystem) (oid : String) (o : Order)
    (h : ps.orders.lookup oid = some o) (hp : o.packages = []) (hc : o.total_cost = none)
    (hd : 0 ≤ o.distance_to_ship)
    (hdm : ∀ t ∈ ps.config.distance, 0 ≤ t.multiplier)
    (hwm : ∀ t ∈ ps.config.weights, 0 ≤ t.multiplier)
    (hbp : ∀ t ∈ ps.config.bonus, 0 ≤ t.percent) :
    ∃ df, (ps.quote oid).1 = Except.ok (QuoteReturn.table df) ∧
      df.battery_weights = [0] ∧ df.battery_values = [0] ∧ df.totals = [some 100] ∧
      0 - o.distance_to_ship * distanceMult ps.config.distance o.distance_to_ship *
          weightMult ps.config.weights 0 ≤ 0 := by
  have hl : quoteLoop ps.config o.packages (0, 0, []) = Except.ok (0, 0, []) := by
    rw [hp]
    rfl
  have hq : ps.quote oid = quoteFinish ps oid o 0 0 [] := by
    simp only [PackagingSystem.quote, h, hc, hl]
  have hbs : 0 ≤ o.distance_to_ship * distanceMult ps.config.distance o.distance_to_ship :=
    mul_nonneg hd (distanceMult_nonneg _ _ hdm)
  have hwm0 : 0 ≤ weightMult ps.config.weights 0 := weightMult_nonneg _ _ hwm
  have hmul : 0 ≤ o.distance_to_ship * distanceMult ps.config.distance o.distance_to_ship *
      weightMult ps.config.weights 0 := mul_nonneg hbs hwm0
  have hb : 0 ≤ bonusPercent ps.config.bonus o.packages.length := bonusPercent_nonneg _ _ hbp
  have hb100 : 0 ≤ bonusPercent ps.config.bonus o.packages.length / 100 :=
    div_nonneg hb (by norm_num)
  have hpre : preFloorTotal ps.config o 0 0 ≤ 0 := by
    have h2 : 0 ≤ o.distance_to_ship * distanceMult ps.config.distance o.distance_to_ship *
        weightMult ps.config.weights 0 *
        (bonusPercent ps.config.bonus o.packages.length / 100) := mul_nonneg hmul hb100
    have h3 : preFloorTotal ps.config o 0 0 =
        -(o.distance_to_ship * distanceMult ps.config.distance o.distance_to_ship *
          weightMult ps.config.weights 0) -
        o.distance_to_ship * distanceMult ps.config.distance o.distance_to_ship *
          weightMult ps.config.weights 0 *
          (bonusPercent ps.config.bonus o.packages.length / 100) := by
      show (0 : ℚ) - o.distance_to_ship * distanceMult ps.config.distance o.distance_to_ship *
          weightMult ps.config.weights 0 +
        ((0 : ℚ) - o.distance_to_ship * distanceMult ps.config.distance o.distance_to_ship *
          weightMult ps.config.weights 0) *
          (bonusPercent ps.config.bonus o.packages.length / 100) = _
      ring
    rw [h3]
    linarith
  have hmax : max (preFloorTotal ps.config o 0 0) 100 = 100 :=
    max_eq_right (le_trans hpre (by norm_num))
  have ht : round2 (max (preFloorTotal ps.config o 0 0) 100) = 100 := by
    rw [hmax, round2_100]
  refine ⟨mkQuoteDF [] (bonusPercent ps.config.bonus o.packages.length)
      (o.distance_to_ship * distanceMult ps.config.distance o.distance_to_ship)
      (round2 (max (preFloorTotal ps.config o 0 0) 100)), ?_, ?_, ?_, ?_, by linarith⟩
  · rw [hq, quoteFinish_fst]
  · simp [mkQuoteDF]
  · simp [mkQuoteDF]
  · simp [mkQuoteDF, ht]

/-- Witness for C9 at the empty-package order `oEmpty`. -/
theorem C9_witness :
    ∃ df, (psEmpty.quote "A").1 = Except.ok (QuoteReturn.table df) ∧
      df.battery_weights = [0] ∧ df.battery_values = [0] ∧ df.totals = [some 100] ∧
      0 - oEmpty.distance_to_ship *
          distanceMult psEmpty.config.distance oEmpty.distance_to_ship *
          weightMult psEmpty.config.weights 0 ≤ 0 :=
  C9_empty_order_total_100 psEmpty "A" oEmpty rfl rfl rfl le_rfl
    (fun t ht => absurd ht (List.not_mem_nil t))
    (fun t ht => absurd ht (List.not_mem_nil t))
    (fun t ht => absurd ht (List.not_mem_nil t))

/-- Claim C10 (frame property): a quote call never changes the rate
configuration or any other order; for the quoted order it can change at most
the cached `total_cost` and `df` fields, and an unknown id leaves the whole
state untouched. -/
theorem C10_quote_frame (ps : PackagingSystem) (oid : String) :
    (ps.quote oid).2.config = ps.config ∧
    (∀ k, k ≠ oid → (ps.quote oid).2.orders.lookup k = ps.orders.lookup k) ∧
    (ps.orders.lookup oid = none → (ps.quote oid).2 = ps) ∧
    (∀ o, ps.orders.lookup oid = some o →
      ∃ o2, (ps.quote oid).2.orders.lookup oid = some o2 ∧
        o2.order_id = o.order_id ∧ o2.location = o.location ∧ o2.date = o.date ∧
        o2.packages = o.packages ∧ o2.distance_to_ship = o.distance_to_ship ∧
        o2.accepted = o.accepted) := by
  cases h : ps.orders.lookup oid with
  | none =>
    have hq : ps.quote oid = (Except.ok QuoteReturn.none, ps) := by
      simp only [PackagingSystem.quote, h]
    rw [hq]
    refine ⟨rfl, fun k _ => rfl, fun _ => rfl, fun o ho => ?_⟩
    cases ho
  | some o =>
    cases hc : o.total_cost with
    | some c =>
      have hq : ps.quote oid = (Except.ok (QuoteReturn.cost c), ps) := by
        simp only [PackagingSystem.quote, h, hc]
      rw [hq]
      refine ⟨rfl, fun k _ => rfl, fun hn => rfl, fun o3 ho3 => ?_⟩
      injection ho3 with he
      exact ⟨o, h, by rw [he], by rw [he], by rw [he], by rw [he], by rw [he], by rw [he]⟩
    | none =>
      cases hl : quoteLoop ps.config o.packages (0, 0, []) with
      | error e =>
        have hq : ps.quote oid = (Except.error e, ps) := by
          simp only [PackagingSystem.quote, h, hc, hl]
        rw [hq]
        refine ⟨rfl, fun k _ => rfl, fun hn => rfl, fun o3 ho3 => ?_⟩
        injection ho3 with he
        exact ⟨o, h, by rw [he], by rw [he], by rw [he], by rw [he], by rw [he], by rw [he]⟩
      | ok acc =>
        obtain ⟨tv, tw, rows⟩ := acc
        have hq : ps.quote oid = quoteFinish ps oid o tv tw rows := by
          simp only [PackagingSystem.quote, h, hc, hl]
        rw [hq]
        refine ⟨quoteFinish_config ps oid o tv tw rows, ?_, ?_, ?_⟩
        · intro k hk
          rw [quoteFinish_orders]
          exact lookup_setOrder_ne ps.orders oid k _ hk
        · intro hn
          cases hn
        · intro o3 ho3
          injection ho3 with he
          subst he
          refine ⟨{ o with
              total_cost := some (round2 (max (preFloorTotal ps.config o tv tw) 100)),
              df := some (mkQuoteDF rows (bonusPercent ps.config.bonus o.packages.length)
                (o.distance_to_ship * distanceMult ps.config.distance o.distance_to_ship)
                (round2 (max (preFloorTotal ps.config o tv tw) 100))) },
            ?_, rfl, rfl, rfl, rfl, rfl, rfl⟩
          rw [quoteFinish_orders, lookup_setOrder_self, h, Option.map_some']

/-- Witness for C10 at the concrete store `psEmpty`. -/
theorem C10_witness :
    (psEmpty.quote "A").2.config = psEmpty.config ∧
    ∃ o2, (psEmpty.quote "A").2.orders.lookup "A" = some o2 ∧
      o2.accepted = oEmpty.accepted := by
  obtain ⟨hcfg, hne, hnone, hsome⟩ := C10_quote_frame psEmpty "A"
  obtain ⟨o2, ho2, h1, h2, h3, h4, h5, h6⟩ := hsome oEmpty rfl
  exact ⟨hcfg, o2, ho2, h6⟩
